import Mathlib

/-!
Verification of the pagination and parameter-serialization core of the
`python-usajobsapi` client library.

The development shallowly embeds:

* `usajobsapi/utils.py` — `_normalize_param` and `_dump_by_alias`, the
  query-parameter serializer (over a model of Pydantic's
  `model_dump(by_alias=True, exclude_none=True, mode="json")` output);
* `usajobsapi/endpoints/historicjoa.py` — the Historic JOA parameter and
  response models, in particular `Response.next_token`;
* `usajobsapi/endpoints/search.py` — the Search parameter and response
  models, in particular `SearchResult.jobs`;
* the client pagination traversals (`search_jobs_pages`,
  `search_jobs_items`, `historic_joa_pages`, `historic_joa_items`), which
  are exercised by the repository's unit tests but whose implementation
  module is not present in the sources; these are modelled from the spec
  (see the doc comments on the corresponding definitions).

Stateful generator loops are embedded as fuel-indexed pure recursions that
return the finite trace of (request, response) rounds.
-/

namespace Usajobsapi

/-! ## Python value model for serialized (JSON-mode) field values -/

/-- A scalar JSON-mode Python value: `None`, a boolean, an integer, or a
string. -/
inductive PyScalar where
  | vnone
  | vbool (b : Bool)
  | vint (n : Int)
  | vstr (s : String)
deriving DecidableEq, Repr

/-- A JSON-mode Python value as produced by Pydantic's
`model_dump(by_alias=True, exclude_none=True, mode="json")` on a
ParameterSet field: a scalar or a list of scalars.  Every list field of
the repository's ParameterSets holds strings, integers, or enum members,
so JSON-mode dumps contain no nested lists. -/
inductive PyValue where
  | scalar (v : PyScalar)
  | vlist (xs : List PyScalar)
deriving DecidableEq, Repr

/-- Whether a `PyValue` is Python `None`. -/
def PyValue.isNone : PyValue → Bool
  | .scalar .vnone => true
  | _ => false

/-- Model of Python `str()` on scalar JSON-mode values.  Booleans print
capitalized (`str(True) == "True"`), integers in decimal. -/
def pyStr : PyScalar → String
  | .vnone => "None"
  | .vbool b => if b then "True" else "False"
  | .vint n => toString n
  | .vstr s => s

/-- Embedding of `usajobsapi.utils._normalize_param`: `None` maps to an
omitted value, booleans to the literal strings `"True"`/`"False"`, lists
to their elements joined with `";"` (an empty list is omitted), and
everything else to its `str()` form, mirroring the function's ordered
`isinstance` dispatch. -/
def normalize_param : PyValue → Option String
  | .scalar .vnone => none
  | .scalar (.vbool b) => some (if b then "True" else "False")
  | .vlist xs =>
      if xs.isEmpty then none
      else some (String.intercalate ";" (xs.map pyStr))
  | .scalar v => some (pyStr v)

/-- Embedding of `usajobsapi.utils._dump_by_alias`.  The input list models
the association list `model.model_dump(by_alias=True, exclude_none=True,
mode="json")` before the `exclude_none` filter — that filter is the
initial `filter`; the loop keeps a key only when `_normalize_param`
returns a truthy (non-`None`, nonempty) string. -/
def dump_by_alias (raw : List (String × PyValue)) : List (String × String) :=
  (raw.filter fun kv => !kv.2.isNone).filterMap fun kv =>
    match normalize_param kv.2 with
    | some s => if s.isEmpty then none else some (kv.1, s)
    | none => none

/-! ## Typed ParameterSet field values

A declared ParameterSet field holds a typed Python value (possibly
absent); Pydantic's JSON-mode dump turns it into a `PyValue` before
`_normalize_param` runs.  `StrEnum` members dump to their underlying
string value and `datetime.date` values to their ISO `YYYY-MM-DD` form. -/

/-- A calendar date, standing in for Python's `datetime.date`. -/
structure PyDate where
  year : Nat
  month : Nat
  day : Nat
deriving DecidableEq, Repr

/-- Left-pad the decimal form of `n` with zeros to width `w`
(`"%0wd" % n`). -/
def padNat (w n : Nat) : String :=
  let s := toString n
  String.mk (List.replicate (w - s.length) '0') ++ s

/-- ISO `YYYY-MM-DD` form of a date, as `date.isoformat()` produces. -/
def PyDate.iso (d : PyDate) : String :=
  padNat 4 d.year ++ "-" ++ padNat 2 d.month ++ "-" ++ padNat 2 d.day

/-- The typed value held by one ParameterSet field before serialization:
an optional scalar (string, integer, boolean, `StrEnum` member, date) or
a list of strings, integers, or `StrEnum` members.  Enum members carry
their qualified member name alongside their underlying string value. -/
inductive FieldValue where
  | absent
  | bool (b : Bool)
  | int (n : Int)
  | str (s : String)
  | strEnum (memberName value : String)
  | date (d : PyDate)
  | listStr (xs : List String)
  | listInt (xs : List Int)
  | listEnum (xs : List (String × String))
deriving DecidableEq, Repr

/-- Pydantic JSON-mode dump of one typed field value: absent fields dump
to `None`, `StrEnum` members to their underlying string value (never the
qualified member name), dates to ISO strings, and lists elementwise. -/
def FieldValue.jsonDump : FieldValue → PyValue
  | .absent => .scalar .vnone
  | .bool b => .scalar (.vbool b)
  | .int n => .scalar (.vint n)
  | .str s => .scalar (.vstr s)
  | .strEnum _ v => .scalar (.vstr v)
  | .date d => .scalar (.vstr d.iso)
  | .listStr xs => .vlist (xs.map PyScalar.vstr)
  | .listInt xs => .vlist (xs.map PyScalar.vint)
  | .listEnum xs => .vlist (xs.map fun e => PyScalar.vstr e.2)

/-- Serialize a typed ParameterSet (given as its alias-keyed field list)
to wire query parameters: the composition of the Pydantic JSON-mode dump
with `_dump_by_alias`. -/
def serializeParams (fields : List (String × FieldValue)) : List (String × String) :=
  dump_by_alias (fields.map fun kv => (kv.1, kv.2.jsonDump))

/-- The fate of a single serialized (JSON-mode) value: `none` when the
key is omitted, `some s` when the key survives with value `s`. -/
def emittedPy (v : PyValue) : Option String :=
  match normalize_param v with
  | some s => if s.isEmpty then none else some s
  | none => none

/-- The fate of a single typed field under serialization. -/
def emittedValue (v : FieldValue) : Option String :=
  emittedPy v.jsonDump

theorem emittedPy_vnone : emittedPy (PyValue.scalar PyScalar.vnone) = none := rfl

theorem dump_by_alias_eq_filterMap (raw : List (String × PyValue)) :
    dump_by_alias raw
      = raw.filterMap fun kv => (emittedPy kv.2).map fun s => (kv.1, s) := by
  induction raw with
  | nil => rfl
  | cons kv rest ih =>
    obtain ⟨k, v⟩ := kv
    by_cases hv : v.isNone
    · have hv' : v = PyValue.scalar PyScalar.vnone := by
        cases v with
        | scalar s => cases s <;> simp_all [PyValue.isNone]
        | vlist xs => simp_all [PyValue.isNone]
      subst hv'
      simpa [dump_by_alias, emittedPy, normalize_param] using ih
    · simp only [dump_by_alias, List.filter_cons, hv, Bool.not_false, if_pos,
        List.filterMap_cons] at *
      cases hnorm : normalize_param v with
      | none => simpa [emittedPy, hnorm] using ih
      | some s =>
        by_cases hs : s.isEmpty
        · simpa [emittedPy, hnorm, hs] using ih
        · simpa [emittedPy, hnorm, hs] using congrArg (List.cons (k, s)) ih

theorem serializeParams_eq_filterMap (fields : List (String × FieldValue)) :
    serializeParams fields
      = fields.filterMap fun kv => (emittedValue kv.2).map fun s => (kv.1, s) := by
  rw [serializeParams, dump_by_alias_eq_filterMap, List.filterMap_map]
  rfl

/-! ## Search endpoint query-parameter enums (`usajobsapi/endpoints/search.py`)

Each `StrEnum` is embedded with its underlying string `value` and its
qualified Python `memberName` (which serialization must never emit). -/

/-- `SortField` from `search.py`. -/
inductive SortField where
  | open_date | closed_date | organization_name | job_title | position_title
  | opening_date | closing_date | ho_name | salary_min | location
  | department | title | agency | salary
deriving DecidableEq, Repr

/-- Underlying string value of a `SortField` member. -/
def SortField.value : SortField → String
  | .open_date => "opendate"
  | .closed_date => "closedate"
  | .organization_name => "organizationname"
  | .job_title => "jobtitle"
  | .position_title => "positiontitle"
  | .opening_date => "openingdate"
  | .closing_date => "closingdate"
  | .ho_name => "honame"
  | .salary_min => "salarymin"
  | .location => "location"
  | .department => "department"
  | .title => "title"
  | .agency => "agency"
  | .salary => "salary"

/-- Qualified Python member name of a `SortField` member. -/
def SortField.memberName : SortField → String
  | .open_date => "SortField.OPEN_DATE"
  | .closed_date => "SortField.CLOSED_DATE"
  | .organization_name => "SortField.ORGANIZATION_NAME"
  | .job_title => "SortField.JOB_TITLE"
  | .position_title => "SortField.POSITION_TITLE"
  | .opening_date => "SortField.OPENING_DATE"
  | .closing_date => "SortField.CLOSING_DATE"
  | .ho_name => "SortField.HO_NAME"
  | .salary_min => "SortField.SALARY_MIN"
  | .location => "SortField.LOCATION"
  | .department => "SortField.DEPARTMENT"
  | .title => "SortField.TITLE"
  | .agency => "SortField.AGENCY"
  | .salary => "SortField.SALARY"

/-- `SortDirection` from `search.py`. -/
inductive SortDirection where
  | asc | desc
deriving DecidableEq, Repr

/-- Underlying string value of a `SortDirection` member. -/
def SortDirection.value : SortDirection → String
  | .asc => "Asc"
  | .desc => "Desc"

/-- Qualified Python member name of a `SortDirection` member. -/
def SortDirection.memberName : SortDirection → String
  | .asc => "SortDirection.ASC"
  | .desc => "SortDirection.DESC"

/-- `WhoMayApply` from `search.py`. -/
inductive WhoMayApply where
  | all | public | status
deriving DecidableEq, Repr

/-- Underlying string value of a `WhoMayApply` member. -/
def WhoMayApply.value : WhoMayApply → String
  | .all => "All"
  | .public => "Public"
  | .status => "Status"

/-- Qualified Python member name of a `WhoMayApply` member. -/
def WhoMayApply.memberName : WhoMayApply → String
  | .all => "WhoMayApply.ALL"
  | .public => "WhoMayApply.PUBLIC"
  | .status => "WhoMayApply.STATUS"

/-- `Fields` from `search.py`. -/
inductive Fields where
  | min | full
deriving DecidableEq, Repr

/-- Underlying string value of a `Fields` member. -/
def Fields.value : Fields → String
  | .min => "Min"
  | .full => "Full"

/-- Qualified Python member name of a `Fields` member. -/
def Fields.memberName : Fields → String
  | .min => "Fields.MIN"
  | .full => "Fields.FULL"

/-- `HiringPath` from `search.py`. -/
inductive HiringPath where
  | public | vet | nguard | disability | native | mspouse | student | ses
  | peace | overseas | fed_internal_search | graduates | fed_excepted
  | fed_competitive | fed_transition | land | special_authorities
deriving DecidableEq, Repr

/-- Underlying string value of a `HiringPath` member. -/
def HiringPath.value : HiringPath → String
  | .public => "public"
  | .vet => "vet"
  | .nguard => "nguard"
  | .disability => "disability"
  | .native => "native"
  | .mspouse => "mspouse"
  | .student => "student"
  | .ses => "ses"
  | .peace => "peace"
  | .overseas => "overseas"
  | .fed_internal_search => "fed-internal-search"
  | .graduates => "graduates"
  | .fed_excepted => "fed-excepted"
  | .fed_competitive => "fed-competitive"
  | .fed_transition => "fed-transition"
  | .land => "land"
  | .special_authorities => "special-authorities"

/-- Qualified Python member name of a `HiringPath` member. -/
def HiringPath.memberName : HiringPath → String
  | .public => "HiringPath.PUBLIC"
  | .vet => "HiringPath.VET"
  | .nguard => "HiringPath.N_GUARD"
  | .disability => "HiringPath.DISABILITY"
  | .native => "HiringPath.NATIVE"
  | .mspouse => "HiringPath.M_SPOUSE"
  | .student => "HiringPath.STUDENT"
  | .ses => "HiringPath.SES"
  | .peace => "HiringPath.PEACE"
  | .overseas => "HiringPath.OVERSEAS"
  | .fed_internal_search => "HiringPath.FED_INTERNAL_SEARCH"
  | .graduates => "HiringPath.GRADUATES"
  | .fed_excepted => "HiringPath.FED_EXCEPTED"
  | .fed_competitive => "HiringPath.FED_COMPETITIVE"
  | .fed_transition => "HiringPath.FED_TRANSITION"
  | .land => "HiringPath.LAND"
  | .special_authorities => "HiringPath.SPECIAL_AUTHORITIES"

/-! ## Typed-field helpers for building the dumped association list -/

/-- An optional string field. -/
def optStr : Option String → FieldValue
  | some s => .str s
  | none => .absent

/-- An optional integer field. -/
def optInt : Option Int → FieldValue
  | some n => .int n
  | none => .absent

/-- An optional boolean field. -/
def optBool : Option Bool → FieldValue
  | some b => .bool b
  | none => .absent

/-- An optional date field. -/
def optDate : Option PyDate → FieldValue
  | some d => .date d
  | none => .absent

/-- An optional enum field, given the enum's member-name and value maps. -/
def optEnum {α : Type} (name value : α → String) : Option α → FieldValue
  | some e => .strEnum (name e) (value e)
  | none => .absent

namespace SearchEndpoint

/-- `SearchEndpoint.Params` from `search.py`: the Job Search query
ParameterSet.  Every field is optional (default `None`) or a list
(default empty), matching the Pydantic declarations.  The cross-field
validators that run at construction time (radius requires a location;
remuneration max at least min) do not affect serialization. -/
structure Params where
  keyword : Option String := none
  position_title : Option String := none
  remuneration_min : Option Int := none
  remuneration_max : Option Int := none
  pay_grade_high : Option String := none
  pay_grade_low : Option String := none
  job_category_codes : List String := []
  position_schedule_type_codes : List String := []
  position_offering_type_codes : List String := []
  organization : List String := []
  location_names : List String := []
  radius : Option Int := none
  travel_percentage : List String := []
  relocation : Option Bool := none
  security_clearance_required : List String := []
  position_sensitivity : List String := []
  who_may_apply : Option WhoMayApply := none
  hiring_paths : List HiringPath := []
  salary_bucket : List String := []
  grade_bucket : List String := []
  supervisory_status : Option String := none
  date_posted_days : Option Int := none
  job_grade_codes : List String := []
  mission_critical_tags : List String := []
  sort_field : Option SortField := none
  sort_direction : Option SortDirection := none
  page : Option Int := none
  results_per_page : Option Int := none
  fields : Option Fields := none
  remote_indicator : Option Bool := none
deriving DecidableEq, Repr

/-- The alias-keyed field list of a search ParameterSet, in declaration
order, with each field's serialization alias from `search.py`. -/
def Params.toRaw (p : Params) : List (String × FieldValue) :=
  [("Keyword", optStr p.keyword),
   ("PositionTitle", optStr p.position_title),
   ("RemunerationMinimumAmount", optInt p.remuneration_min),
   ("RemunerationMaximumAmount", optInt p.remuneration_max),
   ("PayGradeHigh", optStr p.pay_grade_high),
   ("PayGradeLow", optStr p.pay_grade_low),
   ("JobCategoryCode", FieldValue.listStr p.job_category_codes),
   ("PositionScheduleTypeCode", FieldValue.listStr p.position_schedule_type_codes),
   ("PositionOfferingTypeCode", FieldValue.listStr p.position_offering_type_codes),
   ("Organization", FieldValue.listStr p.organization),
   ("LocationName", FieldValue.listStr p.location_names),
   ("Radius", optInt p.radius),
   ("TravelPercentage", FieldValue.listStr p.travel_percentage),
   ("RelocationIndicator", optBool p.relocation),
   ("SecurityClearanceRequired", FieldValue.listStr p.security_clearance_required),
   ("PositionSensitivity", FieldValue.listStr p.position_sensitivity),
   ("WhoMayApply", optEnum WhoMayApply.memberName WhoMayApply.value p.who_may_apply),
   ("HiringPath", FieldValue.listEnum (p.hiring_paths.map fun h => (h.memberName, h.value))),
   ("SalaryBucket", FieldValue.listStr p.salary_bucket),
   ("GradeBucket", FieldValue.listStr p.grade_bucket),
   ("SupervisoryStatus", optStr p.supervisory_status),
   ("DatePosted", optInt p.date_posted_days),
   ("JobGradeCode", FieldValue.listStr p.job_grade_codes),
   ("MissionCriticalTags", FieldValue.listStr p.mission_critical_tags),
   ("SortField", optEnum SortField.memberName SortField.value p.sort_field),
   ("SortDirection", optEnum SortDirection.memberName SortDirection.value p.sort_direction),
   ("Page", optInt p.page),
   ("ResultsPerPage", optInt p.results_per_page),
   ("Fields", optEnum Fields.memberName Fields.value p.fields),
   ("RemoteIndicator", optBool p.remote_indicator)]

/-- `SearchEndpoint.Params.to_params`: serialize the ParameterSet into
payload-ready query parameters via `_dump_by_alias`. -/
def Params.to_params (p : Params) : List (String × String) :=
  serializeParams p.toRaw

end SearchEndpoint

namespace HistoricJoaEndpoint

/-- `HistoricJoaEndpoint.Params` from `historicjoa.py`: the Historic JOA
query ParameterSet.  All fields are optional with default `None`. -/
structure Params where
  hiring_agency_codes : Option String := none
  hiring_department_codes : Option String := none
  position_series : Option String := none
  announcement_numbers : Option String := none
  usajobs_control_numbers : Option String := none
  start_position_open_date : Option PyDate := none
  end_position_open_date : Option PyDate := none
  start_position_close_date : Option PyDate := none
  end_position_close_date : Option PyDate := none
  continuation_token : Option String := none
deriving DecidableEq, Repr

/-- The alias-keyed field list of a Historic JOA ParameterSet, in
declaration order, with the serialization aliases from `historicjoa.py`. -/
def Params.toRaw (p : Params) : List (String × FieldValue) :=
  [("HiringAgencyCodes", optStr p.hiring_agency_codes),
   ("HiringDepartmentCodes", optStr p.hiring_department_codes),
   ("PositionSeries", optStr p.position_series),
   ("AnnouncementNumbers", optStr p.announcement_numbers),
   ("USAJOBSControlNumbers", optStr p.usajobs_control_numbers),
   ("StartPositionOpenDate", optDate p.start_position_open_date),
   ("EndPositionOpenDate", optDate p.end_position_open_date),
   ("StartPositionCloseDate", optDate p.start_position_close_date),
   ("EndPositionCloseDate", optDate p.end_position_close_date),
   ("continuationToken", optStr p.continuation_token)]

/-- `HistoricJoaEndpoint.Params.to_params`: serialize the ParameterSet
into payload-ready query parameters via `_dump_by_alias`. -/
def Params.to_params (p : Params) : List (String × String) :=
  serializeParams p.toRaw

/-- Nested `HiringPath` record of a Historic JOA item. -/
structure Item.HiringPath where
  hiring_path : Option String := none
deriving Repr

/-- Nested `JobCategory` record of a Historic JOA item. -/
structure Item.JobCategory where
  series : Option String := none
deriving Repr

/-- Nested `PositionLocation` record of a Historic JOA item. -/
structure Item.PositionLocation where
  position_location_city : Option String := none
  position_location_state : Option String := none
  position_location_country : Option String := none
deriving Repr

/-- `HistoricJoaEndpoint.Item` from `historicjoa.py`: a single historic
job opportunity announcement record.  Only `usajobs_control_number` is
required; Y/N indicator fields are normalized to booleans and date
fields to dates by the model's validators. -/
structure Item where
  usajobs_control_number : Int
  hiring_agency_code : Option String := none
  hiring_agency_name : Option String := none
  hiring_department_code : Option String := none
  hiring_department_name : Option String := none
  agency_level : Option Int := none
  agency_level_sort : Option String := none
  appointment_type : Option String := none
  work_schedule : Option String := none
  pay_scale : Option String := none
  salary_type : Option String := none
  vendor : Option String := none
  travel_requirement : Option String := none
  telework_eligible : Option Bool := none
  service_type : Option String := none
  security_clearance_required : Option Bool := none
  security_clearance : Option String := none
  who_may_apply : Option String := none
  announcement_closing_type_code : Option String := none
  announcement_closing_type_description : Option String := none
  position_open_date : Option PyDate := none
  position_close_date : Option PyDate := none
  position_expire_date : Option PyDate := none
  announcement_number : Option String := none
  hiring_subelement_name : Option String := none
  position_title : Option String := none
  minimum_grade : Option String := none
  maximum_grade : Option String := none
  promotion_potential : Option String := none
  minimum_salary : Option Float := none
  maximum_salary : Option Float := none
  supervisory_status : Option Bool := none
  drug_test_required : Option Bool := none
  relocation_expenses_reimbursed : Option Bool := none
  total_openings : Option String := none
  disable_apply_online : Option Bool := none
  position_opening_status : Option String := none
  hiring_paths : List Item.HiringPath := []
  job_categories : List Item.JobCategory := []
  position_locations : List Item.PositionLocation := []
deriving Repr

/-- `HistoricJoaEndpoint.PagingMeta`: pagination metadata returned
alongside Historic JOA results. -/
structure PagingMeta where
  total_count : Option Int := none
  page_size : Option Int := none
  continuation_token : Option String := none
deriving DecidableEq, Repr

/-- `HistoricJoaEndpoint.Paging`: container for pagination metadata and
optional navigation links.  `metadata` is a required submodel. -/
structure Paging where
  metadata : PagingMeta
  next : Option String := none
deriving DecidableEq, Repr

/-- `HistoricJoaEndpoint.Response`: the endpoint's response object,
holding optional paging metadata and the list of item records. -/
structure Response where
  paging : Option Paging := none
  data : List Item := []
deriving Repr

/-- `HistoricJoaEndpoint.Response.next_token`, a total function.  The
Python body is `self.paging.metadata.continuation_token if self.paging
and self.paging.metadata else None`; `metadata` is a required Pydantic
submodel and model instances are always truthy, so the guard reduces to
`paging` being present. -/
def Response.next_token (r : Response) : Option String :=
  match r.paging with
  | some p => p.metadata.continuation_token
  | none => none

end HistoricJoaEndpoint

/-! ## Raw JSON values and Python truthiness

Search result pages carry their items as raw JSON dictionaries
(`List[Dict[str, Any]]`); `SearchResult.jobs` inspects them
dynamically. -/

/-- A JSON value.  Numbers are modelled as integers; no verified claim
depends on fractional payload fields. -/
inductive Json where
  | null
  | bool (b : Bool)
  | num (n : Int)
  | str (s : String)
  | arr (xs : List Json)
  | obj (fields : List (String × Json))
deriving Repr

/-- Python truthiness of a JSON value: `None`, `0`, `False`, and empty
strings/lists/dicts are falsy. -/
def Json.pyTruthy : Json → Bool
  | .null => false
  | .bool b => b
  | .num n => n != 0
  | .str s => !s.isEmpty
  | .arr xs => !xs.isEmpty
  | .obj kvs => !kvs.isEmpty

/-- Python `dict.get`: the value stored under a key, if present. -/
def jsonGet : List (String × Json) → String → Option Json
  | [], _ => none
  | (k, v) :: rest, key => if k = key then some v else jsonGet rest key

namespace SearchEndpoint

/-- `SearchEndpoint.JobSummary` from `search.py`, restricted to its
required fields and optional scalar string fields.  The nested submodel
fields (locations, job categories, grades, schedules, offerings, user
area, remuneration) and the float salary fields are not modelled: their
validation is Pydantic library behavior on all-optional submodels and is
outside the verified scope, and no claim depends on them. -/
structure JobSummary where
  id : String
  position_id : Option String := none
  position_title : String
  position_uri : Option String := none
  apply_uri : List String := []
  organization_name : Option String := none
  department_name : Option String := none
  locations_display : Option String := none
  qualification_summary : Option String := none
  publication_start_date : Option String := none
  application_close_date : Option String := none
deriving DecidableEq, Repr

/-- Validate an optional string field: absent or JSON `null` yields
`none`, a string yields the string, and any other type is a validation
error (Pydantic v2 does not coerce non-strings to `str`). -/
def optStrField (kvs : List (String × Json)) (key : String) :
    Except String (Option String) :=
  match jsonGet kvs key with
  | none => .ok none
  | some .null => .ok none
  | some (.str s) => .ok (some s)
  | some _ => .error key

/-- Validate a required string field: it must be present and a string. -/
def reqStrField (kvs : List (String × Json)) (key : String) :
    Except String String :=
  match jsonGet kvs key with
  | some (.str s) => .ok s
  | some _ => .error key
  | none => .error key

/-- Interpret a JSON array as a list of strings, if every element is a
string. -/
def asStrList : List Json → Option (List String)
  | [] => some []
  | .str s :: rest => (asStrList rest).map fun l => s :: l
  | _ => none

/-- Validate a list-of-strings field (`ApplyURI`): absent yields the
empty default; present values must be arrays of strings. -/
def strListField (kvs : List (String × Json)) (key : String) :
    Except String (List String) :=
  match jsonGet kvs key with
  | none => .ok []
  | some (.arr xs) =>
      match asStrList xs with
      | some l => .ok l
      | none => .error key
  | some _ => .error key

/-- Model of `SearchEndpoint.JobSummary.model_validate` on a descriptor
JSON value: fails unless the value is an object whose required aliases
`MatchedObjectId` and `PositionTitle` hold strings; the modelled
optional fields must be strings (or null) when present; unmodelled
aliases are ignored (the model does not forbid extras). -/
def JobSummary.model_validate (d : Json) : Except String JobSummary :=
  match d with
  | .obj kvs => do
      let i ← reqStrField kvs "MatchedObjectId"
      let pid ← optStrField kvs "PositionID"
      let title ← reqStrField kvs "PositionTitle"
      let uri ← optStrField kvs "PositionURI"
      let uris ← strListField kvs "ApplyURI"
      let org ← optStrField kvs "OrganizationName"
      let dept ← optStrField kvs "DepartmentName"
      let locd ← optStrField kvs "PositionLocationDisplay"
      let qual ← optStrField kvs "QualificationSummary"
      let pub ← optStrField kvs "PublicationStartDate"
      let closed ← optStrField kvs "ApplicationCloseDate"
      .ok { id := i, position_id := pid, position_title := title, position_uri := uri,
            apply_uri := uris, organization_name := org, department_name := dept,
            locations_display := locd, qualification_summary := qual,
            publication_start_date := pub, application_close_date := closed }
  | _ => .error "descriptor is not an object"

/-- `SearchEndpoint.SearchResult` from `search.py`: one page of
paginated search results, with its raw result items. -/
structure SearchResult where
  result_count : Option Int := none
  result_total : Option Int := none
  items : List (List (String × Json)) := []
deriving Repr

/-- The descriptor selected for one raw result item: the value under
`MatchedObjectDescriptor` when present and truthy, otherwise the item
itself (`item.get("MatchedObjectDescriptor") or item` — some responses
do not nest the payload). -/
def descriptorOf (item : List (String × Json)) : Json :=
  match jsonGet item "MatchedObjectDescriptor" with
  | some d => if d.pyTruthy then d else Json.obj item
  | none => Json.obj item

/-- `SearchEndpoint.SearchResult.jobs`: normalize the result items,
skipping malformed payloads.  The loop validates each item's descriptor,
appends on success, and continues past a validation error; it is a total
function, so no exception escapes. -/
def SearchResult.jobs (sr : SearchResult) : List JobSummary :=
  sr.items.foldl
    (fun out item =>
      match JobSummary.model_validate (descriptorOf item) with
      | .ok js => out ++ [js]
      | .error _ => out)
    []

/-- `SearchEndpoint.Response` from `search.py`: the endpoint's response
object.  `params` echoes the request's search parameters when the server
returns them. -/
structure Response where
  language : Option String := none
  params : Option Params := none
  search_result : Option SearchResult := none
deriving Repr

/-- `SearchEndpoint.Response.jobs`: expose the parsed jobs, or the empty
list when the response carries no `SearchResult`. -/
def Response.jobs (r : Response) : List JobSummary :=
  match r.search_result with
  | none => []
  | some sr => sr.jobs

end SearchEndpoint

/-! ## Client pagination traversals

The `USAJobsClient` pagination methods (`search_jobs_pages`,
`search_jobs_items`, `historic_joa_pages`, `historic_joa_items`) are
exercised by the repository's unit tests but their implementation module
is not present in the sources, so they are modelled from the spec's
state-machine descriptions (offset paginator, token paginator, item
flattener).  Generators become fuel-indexed recursions returning the
finite trace of (request, response) rounds; the external endpoint
invoker (`search_jobs` / `historic_joa`, performing the network call) is
a function argument. -/

/-- Modelled from the spec: the item count one offset-style page
actually returned — the number of result records it contains (absent
`SearchResult` counts as zero).  Used for the running total, the derived
results-per-page, and the short-page test of the missing
`USAJobsClient.search_jobs_pages`. -/
def SearchEndpoint.Response.pageItemCount (r : SearchEndpoint.Response) : Int :=
  match r.search_result with
  | some sr => (sr.items.length : Int)
  | none => 0

/-- Modelled from the spec: the server-reported total-item count across
all pages (`SearchResultCountAll`), when supplied. -/
def SearchEndpoint.Response.reportedTotal (r : SearchEndpoint.Response) : Option Int :=
  match r.search_result with
  | some sr => sr.result_total
  | none => none

/-- Modelled from the spec: the offset paginator's continue/stop
decision, checked after each page, in priority order: a page with zero
items stops immediately; else, when the server reports a total, stop
once the running count of items seen (`seenAfter`, including this page)
reaches or exceeds it; else continue exactly while the page is full —
its count equals the effective page size (`rpp` is the results-per-page
used for the request that produced the page; when it was omitted, the
page's own count is the effective size, so a nonempty first page without
a total continues). -/
def offsetContinue (rpp : Option Int) (count seenAfter : Int) (total : Option Int) : Bool :=
  if count = 0 then false
  else
    match total with
    | some t => decide (seenAfter < t)
    | none => decide (count = rpp.getD count)

/-- Modelled from the spec: the request loop of the missing
`USAJobsClient.search_jobs_pages`.  Each round requests `page` with all
original filter parameters and the current results-per-page (absent only
when the caller configured none and no page has been seen), yields the
page, and continues per `offsetContinue`, pinning the results-per-page
to its effective value for every later request.  `fuel` bounds the
number of requests so the recursion is total. -/
def searchJobsPagesGo (invoke : SearchEndpoint.Params → SearchEndpoint.Response)
    (params : SearchEndpoint.Params) :
    Nat → Int → Int → Option Int → List (SearchEndpoint.Params × SearchEndpoint.Response)
  | 0, _, _, _ => []
  | fuel + 1, page, seen, rpp =>
    let call := { params with page := some page, results_per_page := rpp }
    let resp := invoke call
    let count := resp.pageItemCount
    (call, resp) ::
      (if offsetContinue rpp count (seen + count) resp.reportedTotal then
        searchJobsPagesGo invoke params fuel (page + 1) (seen + count) (some (rpp.getD count))
      else [])

/-- Modelled from the spec: the missing `USAJobsClient.search_jobs_pages`
offset-paginator traversal.  The first request uses the caller's page
(default 1) and the caller's results-per-page exactly as configured
(omitted when absent).  The trace pairs every yielded page with the
request that produced it. -/
def search_jobs_pages (invoke : SearchEndpoint.Params → SearchEndpoint.Response)
    (fuel : Nat) (params : SearchEndpoint.Params) :
    List (SearchEndpoint.Params × SearchEndpoint.Response) :=
  searchJobsPagesGo invoke params fuel (params.page.getD 1) 0 params.results_per_page

/-- Modelled from the spec: the missing `USAJobsClient.search_jobs_items`
item flattener — each yielded page's parsed job summaries, in page
order. -/
def search_jobs_items (invoke : SearchEndpoint.Params → SearchEndpoint.Response)
    (fuel : Nat) (params : SearchEndpoint.Params) : List SearchEndpoint.JobSummary :=
  (search_jobs_pages invoke fuel params).flatMap fun cr => cr.2.jobs

/-- Modelled from the spec: the outcome of a token-paginator traversal —
the (request, response) rounds issued in order, and, when a duplicate
continuation token was extracted, the token that triggered the
`CycleDetected` failure. -/
structure TokenTraversal where
  rounds : List (HistoricJoaEndpoint.Params × HistoricJoaEndpoint.Response)
  cycle_error : Option String
deriving Repr

/-- Modelled from the spec: the request loop of the missing
`USAJobsClient.historic_joa_pages`.  Each round requests with all
original filter parameters plus the current continuation token (omitted
when absent), extracts `next_token()`, stops normally when it is absent,
and fails with the duplicate token when it equals a token already used
by this traversal (`seen` lists the tokens used so far, including the
current one). -/
def historicJoaPagesGo
    (invoke : HistoricJoaEndpoint.Params → HistoricJoaEndpoint.Response)
    (params : HistoricJoaEndpoint.Params) :
    Nat → Option String → List String → TokenTraversal
  | 0, _, _ => ⟨[], none⟩
  | fuel + 1, tok, seen =>
    let call := { params with continuation_token := tok }
    let resp := invoke call
    let seen' := seen ++ tok.toList
    match resp.next_token with
    | none => ⟨[(call, resp)], none⟩
    | some nt =>
      if nt ∈ seen' then ⟨[(call, resp)], some nt⟩
      else
        let rest := historicJoaPagesGo invoke params fuel (some nt) seen'
        ⟨(call, resp) :: rest.rounds, rest.cycle_error⟩

/-- Modelled from the spec: the missing
`USAJobsClient.historic_joa_pages` token-paginator traversal, starting
from the caller's initial continuation token (absent when the caller
supplied none). -/
def historic_joa_pages
    (invoke : HistoricJoaEndpoint.Params → HistoricJoaEndpoint.Response)
    (fuel : Nat) (params : HistoricJoaEndpoint.Params) : TokenTraversal :=
  historicJoaPagesGo invoke params fuel params.continuation_token []

/-- Modelled from the spec: the pages the generator actually yields.  On
duplicate detection the `CycleDetected` error is raised in place of the
page that produced the duplicate token (the repository's unit test pulls
one page and then expects the second pull to raise). -/
def TokenTraversal.yieldedPages (t : TokenTraversal) :
    List HistoricJoaEndpoint.Response :=
  match t.cycle_error with
  | none => t.rounds.map fun cr => cr.2
  | some _ => (t.rounds.map fun cr => cr.2).dropLast

/-- The continuation tokens used by a traversal's requests, in request
order. -/
def TokenTraversal.usedTokens (t : TokenTraversal) : List String :=
  t.rounds.filterMap fun cr => cr.1.continuation_token

/-- Modelled from the spec: the missing
`USAJobsClient.historic_joa_items` item flattener — every yielded page's
item records in page order, paired with the cycle error still pending
after those items, if any. -/
def historic_joa_items
    (invoke : HistoricJoaEndpoint.Params → HistoricJoaEndpoint.Response)
    (fuel : Nat) (params : HistoricJoaEndpoint.Params) :
    List HistoricJoaEndpoint.Item × Option String :=
  let tr := historic_joa_pages invoke fuel params
  (tr.yieldedPages.flatMap fun r => r.data, tr.cycle_error)

/-- The rounds of a token traversal are chained: each request carries
the original filter parameters plus its continuation token — the first
round's token is `tok`, and every later round's token is the previous
response's `next_token()`. -/
def ChainedFrom (params : HistoricJoaEndpoint.Params) :
    Option String → List (HistoricJoaEndpoint.Params × HistoricJoaEndpoint.Response) → Prop
  | _, [] => True
  | tok, (c, r) :: rest =>
      c = { params with continuation_token := tok }
      ∧ ChainedFrom params r.next_token rest

/-- A normally terminated trace: every page before the last extracts a
continuation token, and the last page's token is absent. -/
def EndsAtAbsentToken :
    List (HistoricJoaEndpoint.Params × HistoricJoaEndpoint.Response) → Prop
  | [] => True
  | [(_, r)] => r.next_token = none
  | (_, r) :: rest => (∃ t, r.next_token = some t) ∧ EndsAtAbsentToken rest

/-- Every response in the trace extracts a token that is fresh with
respect to the whole history: not equal to any continuation token used
by any request so far — `used` accumulates the tokens of all requests
issued before the trace, and each round adds its own request's token
before its extracted token is checked. -/
def NoDuplicateExtracted :
    List String → List (HistoricJoaEndpoint.Params × HistoricJoaEndpoint.Response) → Prop
  | _, [] => True
  | used, (c, r) :: rest =>
      (∀ t, r.next_token = some t → t ∉ used ++ c.continuation_token.toList)
      ∧ NoDuplicateExtracted (used ++ c.continuation_token.toList) rest

/-- The request built by the offset paginator for one round: the
original filter parameters with the round's page number and
results-per-page. -/
def offsetCall (params : SearchEndpoint.Params) (page : Int) (rpp : Option Int) :
    SearchEndpoint.Params :=
  { params with page := some page, results_per_page := rpp }

/-- The first request built by the offset paginator: the caller's filter
parameters with the starting page number and the caller's
results-per-page exactly as configured. -/
def firstSearchCall (params : SearchEndpoint.Params) : SearchEndpoint.Params :=
  { params with
      page := some (params.page.getD 1)
      results_per_page := params.results_per_page }

/-! ## Concrete test scenarios

Mock endpoint invokers mirroring the repository's unit-test fixtures. -/

/-- A search response page holding `n` (blank) result records, with the
optionally reported total across all pages. -/
def mkSearchPage (n : Nat) (total : Option Int) : SearchEndpoint.Response :=
  { search_result :=
      some { result_count := some (Int.ofNat n)
             result_total := total
             items := List.replicate n [] } }

/-- Pages of sizes 2, 2, 1 with reported total 5, keyed by requested
page number (`test_search_jobs_pages_yields_pages`). -/
def searchPagesTotalsScenario : SearchEndpoint.Params → SearchEndpoint.Response :=
  fun p =>
    if p.page = some 1 then mkSearchPage 2 (some 5)
    else if p.page = some 2 then mkSearchPage 2 (some 5)
    else mkSearchPage 1 (some 5)

/-- Pages of sizes 2, 1 with no reported total
(`test_search_jobs_pages_handles_missing_total`). -/
def searchPagesNoTotalScenario : SearchEndpoint.Params → SearchEndpoint.Response :=
  fun p => if p.page = some 1 then mkSearchPage 2 none else mkSearchPage 1 none

/-- Every request returns an empty page
(`test_search_jobs_pages_breaks_on_empty_results`). -/
def searchPagesEmptyScenario : SearchEndpoint.Params → SearchEndpoint.Response :=
  fun _ => mkSearchPage 0 none

/-- A Historic JOA item carrying only its control number. -/
def mkHistoricItem (n : Int) : HistoricJoaEndpoint.Item :=
  { usajobs_control_number := n }

/-- A Historic JOA response page with the given item control numbers and
continuation token. -/
def mkHistoricPage (ns : List Int) (tok : Option String) :
    HistoricJoaEndpoint.Response :=
  { paging :=
      some { metadata := { continuation_token := tok }
             next := none }
    data := ns.map mkHistoricItem }

/-- Two pages chained by `"NEXTTOKEN"`
(`test_historic_joa_pages_yields_pages`). -/
def historicTwoPageScenario :
    HistoricJoaEndpoint.Params → HistoricJoaEndpoint.Response :=
  fun p =>
    if p.continuation_token = some "INITIALTOKEN" then
      mkHistoricPage [1, 2] (some "NEXTTOKEN")
    else mkHistoricPage [] none

/-- Every page extracts `"NEXTTOKEN"`, so the second page repeats the
token used to fetch it (`test_historic_joa_pages_duplicate_token`). -/
def historicDuplicateScenario :
    HistoricJoaEndpoint.Params → HistoricJoaEndpoint.Response :=
  fun _ => mkHistoricPage [1, 2] (some "NEXTTOKEN")

/-- Two pages holding 2 and 1 items
(`test_historic_joa_items_yields_items_across_pages`). -/
def historicItemsScenario :
    HistoricJoaEndpoint.Params → HistoricJoaEndpoint.Response :=
  fun p =>
    if p.continuation_token = some "TOKEN2" then mkHistoricPage [111222333] none
    else mkHistoricPage [123456789, 987654321] (some "TOKEN2")

/-- Tokens cycle `"TOKA"` → `"TOKB"` → `"TOKA"`: the third page repeats
a token used two requests earlier, not the immediately preceding one. -/
def historicOlderDuplicateScenario :
    HistoricJoaEndpoint.Params → HistoricJoaEndpoint.Response :=
  fun p =>
    if p.continuation_token = some "TOKA" then mkHistoricPage [2] (some "TOKB")
    else if p.continuation_token = some "TOKB" then mkHistoricPage [3] (some "TOKA")
    else mkHistoricPage [1] (some "TOKA")

/-! ## Per-field serialization facts -/

theorem emittedValue_absent : emittedValue FieldValue.absent = none := rfl

theorem emittedValue_str_empty : emittedValue (FieldValue.str "") = none := rfl

theorem emittedValue_listStr_nil : emittedValue (FieldValue.listStr []) = none := rfl

theorem emittedValue_listInt_nil : emittedValue (FieldValue.listInt []) = none := rfl

theorem emittedValue_listEnum_nil : emittedValue (FieldValue.listEnum []) = none := rfl

theorem emittedValue_int_zero : emittedValue (FieldValue.int 0) = some "0" := rfl

theorem emittedValue_bool (b : Bool) :
    emittedValue (FieldValue.bool b) = some (if b then "True" else "False") := by
  cases b <;> rfl

theorem emittedValue_listStr_three (a b c : String) :
    emittedValue (FieldValue.listStr [a, b, c]) = some (a ++ ";" ++ b ++ ";" ++ c) := by
  have hne : (a ++ ";" ++ b ++ ";" ++ c).isEmpty = false := by
    rw [Bool.eq_false_iff]
    intro h
    have h2 := (String.isEmpty_iff _).mp h
    have h3 := congrArg String.length h2
    have hsemi : (";" : String).length = 1 := rfl
    have hnil : ("" : String).length = 0 := rfl
    simp only [String.length_append, hsemi, hnil] at h3
    omega
  have key : normalize_param (FieldValue.listStr [a, b, c]).jsonDump
      = some (a ++ ";" ++ b ++ ";" ++ c) := by
    simp [FieldValue.jsonDump, normalize_param, pyStr, String.intercalate,
      String.intercalate.go]
  simp [emittedValue, emittedPy, key, hne]

theorem emittedValue_strEnum (memberName value : String) (hv : value ≠ "") :
    emittedValue (FieldValue.strEnum memberName value) = some value := by
  have hne : value.isEmpty = false := by
    rw [Bool.eq_false_iff]
    intro h
    exact hv ((String.isEmpty_iff _).mp h)
  simp [emittedValue, emittedPy, FieldValue.jsonDump, normalize_param, pyStr, hne]

/-- C6: for every ParameterSet, the serialized query mapping produced by
`to_params` / `_dump_by_alias` omits every key whose value is
`None`/absent, the empty string, or an empty list, while falsy-but
-present values `0` and `False` are preserved under their keys as the
strings `"0"` and `"False"`.  The final conjunct checks this on a
concrete `SearchEndpoint.Params`: all unset fields are omitted from
`to_params`, which matches the repository's serialization unit test. -/
theorem c6_serializer_omits_empty_preserves_falsy
    (pre post : List (String × FieldValue)) (k : String) (v : FieldValue) :
    ((v = FieldValue.absent ∨ v = FieldValue.str "" ∨ v = FieldValue.listStr [] ∨
        v = FieldValue.listInt [] ∨ v = FieldValue.listEnum []) →
      serializeParams (pre ++ (k, v) :: post) = serializeParams (pre ++ post))
    ∧ serializeParams (pre ++ (k, FieldValue.int 0) :: post)
        = serializeParams pre ++ (k, "0") :: serializeParams post
    ∧ serializeParams (pre ++ (k, FieldValue.bool false) :: post)
        = serializeParams pre ++ (k, "False") :: serializeParams post
    ∧ SearchEndpoint.Params.to_params
        { keyword := some "developer"
          location_names := ["City, ST", "Town, ST2"]
          radius := some 25
          relocation := some true
          job_category_codes := ["001", "002"]
          hiring_paths := [HiringPath.public, HiringPath.vet] }
        = [("Keyword", "developer"), ("JobCategoryCode", "001;002"),
           ("LocationName", "City, ST;Town, ST2"), ("Radius", "25"),
           ("RelocationIndicator", "True"), ("HiringPath", "public;vet")] := by
  refine ⟨?_, ?_, ?_, ?_⟩
  · rintro (rfl | rfl | rfl | rfl | rfl) <;>
      simp [serializeParams_eq_filterMap, List.filterMap_append, emittedValue_absent,
        emittedValue_str_empty, emittedValue_listStr_nil, emittedValue_listInt_nil,
        emittedValue_listEnum_nil]
  · simp [serializeParams_eq_filterMap, List.filterMap_append, emittedValue_int_zero]
  · simp [serializeParams_eq_filterMap, List.filterMap_append,
      show emittedValue (FieldValue.bool false) = some "False" from rfl]
  · rfl

/-- Closed instance of `c6_serializer_omits_empty_preserves_falsy`: an
absent field between two present ones is dropped from the serialized
mapping. -/
theorem c6_serializer_omits_empty_preserves_falsy_witness :
    serializeParams
        ([("A", FieldValue.str "hello")] ++ ("G", FieldValue.absent)
          :: [("D", FieldValue.int 0)])
      = serializeParams ([("A", FieldValue.str "hello")] ++ [("D", FieldValue.int 0)]) :=
  (c6_serializer_omits_empty_preserves_falsy
    [("A", FieldValue.str "hello")] [("D", FieldValue.int 0)] "G" FieldValue.absent).1
    (Or.inl rfl)

/-- C7: every present (non-omitted) field serializes by type: booleans to
exactly `"True"`/`"False"` (capitalized), a three-element list to its
elements joined with `";"`, and enum members to their underlying string
value (e.g. `HiringPath.PUBLIC` serializes as `"public"`), never the
qualified member name; the last conjunct places these per-field values
into the serialized mapping. -/
theorem c7_present_values_formatted_by_type :
    (∀ b : Bool, emittedValue (FieldValue.bool b) = some (if b then "True" else "False"))
    ∧ (∀ a b c : String,
        emittedValue (FieldValue.listStr [a, b, c]) = some (a ++ ";" ++ b ++ ";" ++ c))
    ∧ (∀ memberName value : String, value ≠ "" →
        emittedValue (FieldValue.strEnum memberName value) = some value)
    ∧ emittedValue
        (FieldValue.strEnum HiringPath.public.memberName HiringPath.public.value)
        = some "public"
    ∧ HiringPath.public.memberName ≠ HiringPath.public.value
    ∧ (∀ fields : List (String × FieldValue),
        serializeParams fields
          = fields.filterMap fun kv => (emittedValue kv.2).map fun s => (kv.1, s)) :=
  ⟨emittedValue_bool, emittedValue_listStr_three, emittedValue_strEnum, rfl,
    by decide, serializeParams_eq_filterMap⟩

/-- Closed instance of `c7_present_values_formatted_by_type`: the spec's
example enum member serializes to its underlying value `"blue"`. -/
theorem c7_present_values_formatted_by_type_witness :
    emittedValue (FieldValue.strEnum "Color.BLUE" "blue") = some "blue" :=
  c7_present_values_formatted_by_type.2.2.1 "Color.BLUE" "blue" (by decide)

/-- C8: `HistoricJoaEndpoint.Response.next_token` is total (it is a Lean
function, so it never raises): it returns the continuation token from
the paging metadata when paging metadata exists and `none` when paging
is absent. -/
theorem c8_next_token_total (r : HistoricJoaEndpoint.Response) :
    (r.paging = none → r.next_token = none)
    ∧ ∀ p : HistoricJoaEndpoint.Paging, r.paging = some p →
        r.next_token = p.metadata.continuation_token := by
  constructor
  · intro h
    simp [HistoricJoaEndpoint.Response.next_token, h]
  · intro p h
    simp [HistoricJoaEndpoint.Response.next_token, h]

/-- Closed instance of `c8_next_token_total`: a response without paging
yields no token; one with paging yields the token stored in its
metadata. -/
theorem c8_next_token_total_witness :
    HistoricJoaEndpoint.Response.next_token { paging := none } = none
    ∧ HistoricJoaEndpoint.Response.next_token
        { paging := some { metadata := { continuation_token := some "NEXTTOKEN" } } }
        = some "NEXTTOKEN" :=
  ⟨(c8_next_token_total { paging := none }).1 rfl,
   (c8_next_token_total
      { paging := some { metadata := { continuation_token := some "NEXTTOKEN" } } }).2
      { metadata := { continuation_token := some "NEXTTOKEN" } } rfl⟩

/-! ## `SearchResult.jobs` skipping and ordering -/

theorem jobs_foldl_eq (items : List (List (String × Json)))
    (out : List SearchEndpoint.JobSummary) :
    items.foldl
        (fun out item =>
          match SearchEndpoint.JobSummary.model_validate (SearchEndpoint.descriptorOf item) with
          | .ok js => out ++ [js]
          | .error _ => out)
        out
      = out ++ items.filterMap fun item =>
          (SearchEndpoint.JobSummary.model_validate (SearchEndpoint.descriptorOf item)).toOption := by
  induction items generalizing out with
  | nil => simp
  | cons item rest ih =>
    simp only [List.foldl_cons, List.filterMap_cons]
    cases h : SearchEndpoint.JobSummary.model_validate (SearchEndpoint.descriptorOf item) with
    | ok js => simp [h, ih, Except.toOption]
    | error e => simp [h, ih, Except.toOption]

theorem jobs_eq_filterMap (sr : SearchEndpoint.SearchResult) :
    sr.jobs = sr.items.filterMap fun item =>
      (SearchEndpoint.JobSummary.model_validate (SearchEndpoint.descriptorOf item)).toOption := by
  simpa [SearchEndpoint.SearchResult.jobs] using jobs_foldl_eq sr.items []

/-- C9: `SearchResult.jobs` equals the in-order validation of each
item's descriptor with failures dropped — valid records are kept in
their original relative order — and removing a malformed item from
anywhere in the page leaves the result unchanged, so a malformed item
never aborts the page; `jobs` is a total function, so no exception
escapes it. -/
theorem c9_jobs_skips_malformed_keeps_valid (count total : Option Int)
    (items : List (List (String × Json))) :
    (SearchEndpoint.SearchResult.jobs ⟨count, total, items⟩
      = items.filterMap fun item =>
          (SearchEndpoint.JobSummary.model_validate (SearchEndpoint.descriptorOf item)).toOption)
    ∧ ∀ pre bad post, items = pre ++ bad :: post →
        (SearchEndpoint.JobSummary.model_validate (SearchEndpoint.descriptorOf bad)).toOption
          = none →
        SearchEndpoint.SearchResult.jobs ⟨count, total, items⟩
          = SearchEndpoint.SearchResult.jobs ⟨count, total, pre ++ post⟩ := by
  constructor
  · exact jobs_eq_filterMap ⟨count, total, items⟩
  · intro pre bad post hitems hbad
    subst hitems
    rw [jobs_eq_filterMap ⟨count, total, pre ++ bad :: post⟩,
      jobs_eq_filterMap ⟨count, total, pre ++ post⟩]
    simp [List.filterMap_append, List.filterMap_cons, hbad]

/-- Closed instance of `c9_jobs_skips_malformed_keeps_valid`: dropping
the page's malformed third item (its descriptor lacks `PositionTitle`)
does not change the parsed jobs, mirroring the repository's
`test_search_result_jobs_parsing`. -/
theorem c9_jobs_skips_malformed_keeps_valid_witness :
    SearchEndpoint.SearchResult.jobs
        ⟨some 3, some 3,
          [[("MatchedObjectId", Json.str "2"), ("PositionTitle", Json.str "Analyst")],
           [("MatchedObjectDescriptor", Json.obj [("MatchedObjectId", Json.str "3")])]]⟩
      = SearchEndpoint.SearchResult.jobs
          ⟨some 3, some 3,
            [[("MatchedObjectId", Json.str "2"), ("PositionTitle", Json.str "Analyst")]]⟩ :=
  (c9_jobs_skips_malformed_keeps_valid (some 3) (some 3)
      [[("MatchedObjectId", Json.str "2"), ("PositionTitle", Json.str "Analyst")],
       [("MatchedObjectDescriptor", Json.obj [("MatchedObjectId", Json.str "3")])]]).2
    [[("MatchedObjectId", Json.str "2"), ("PositionTitle", Json.str "Analyst")]]
    [("MatchedObjectDescriptor", Json.obj [("MatchedObjectId", Json.str "3")])]
    [] rfl rfl

/-- C10: when an item has no `MatchedObjectDescriptor` key, or that
key's value is Python-falsy, the item dictionary itself becomes the
descriptor, so an un-wrapped result record validating as a `JobSummary`
is parsed rather than skipped. -/
theorem c10_unwrapped_item_validated_directly :
    (∀ item : List (String × Json),
        jsonGet item "MatchedObjectDescriptor" = none →
        SearchEndpoint.descriptorOf item = Json.obj item)
    ∧ (∀ (item : List (String × Json)) (d : Json),
        jsonGet item "MatchedObjectDescriptor" = some d →
        d.pyTruthy = false →
        SearchEndpoint.descriptorOf item = Json.obj item)
    ∧ (∀ (count total : Option Int) (item : List (String × Json))
        (js : SearchEndpoint.JobSummary),
        jsonGet item "MatchedObjectDescriptor" = none →
        SearchEndpoint.JobSummary.model_validate (Json.obj item) = Except.ok js →
        SearchEndpoint.SearchResult.jobs ⟨count, total, [item]⟩ = [js]) := by
  refine ⟨?_, ?_, ?_⟩
  · intro item h
    simp [SearchEndpoint.descriptorOf, h]
  · intro item d h hfalsy
    simp [SearchEndpoint.descriptorOf, h, hfalsy]
  · intro count total item js h hok
    have hdesc : SearchEndpoint.descriptorOf item = Json.obj item := by
      simp [SearchEndpoint.descriptorOf, h]
    rw [jobs_eq_filterMap ⟨count, total, [item]⟩]
    simp [hdesc, hok, Except.toOption]

/-- Closed instance of `c10_unwrapped_item_validated_directly`: the
un-wrapped record `{"MatchedObjectId": "2", "PositionTitle": "Analyst"}`
is parsed into a job summary. -/
theorem c10_unwrapped_item_validated_directly_witness :
    SearchEndpoint.SearchResult.jobs
        ⟨some 1, some 1,
          [[("MatchedObjectId", Json.str "2"), ("PositionTitle", Json.str "Analyst")]]⟩
      = [{ id := "2", position_title := "Analyst" }] :=
  c10_unwrapped_item_validated_directly.2.2 (some 1) (some 1)
    [("MatchedObjectId", Json.str "2"), ("PositionTitle", Json.str "Analyst")]
    { id := "2", position_title := "Analyst" } rfl rfl

/-! ## Token paginator invariants -/

theorem historicJoaPagesGo_rounds_ne_nil
    (invoke : HistoricJoaEndpoint.Params → HistoricJoaEndpoint.Response)
    (params : HistoricJoaEndpoint.Params) (fuel : Nat) (tok : Option String)
    (seen : List String) (h : 1 ≤ fuel) :
    (historicJoaPagesGo invoke params fuel tok seen).rounds ≠ [] := by
  obtain ⟨f, rfl⟩ : ∃ f, fuel = f + 1 := ⟨fuel - 1, by omega⟩
  simp only [historicJoaPagesGo]
  cases h1 : (invoke { params with continuation_token := tok }).next_token with
  | none => simp
  | some nt => by_cases h2 : nt ∈ seen ++ tok.toList <;> simp [h2]

theorem historicJoaPagesGo_error_rounds_ne_nil
    (invoke : HistoricJoaEndpoint.Params → HistoricJoaEndpoint.Response)
    (params : HistoricJoaEndpoint.Params) (fuel : Nat) (tok : Option String)
    (seen : List String) (t : String)
    (h : (historicJoaPagesGo invoke params fuel tok seen).cycle_error = some t) :
    (historicJoaPagesGo invoke params fuel tok seen).rounds ≠ [] := by
  cases fuel with
  | zero => simp [historicJoaPagesGo] at h
  | succ f =>
    exact historicJoaPagesGo_rounds_ne_nil invoke params (f + 1) tok seen (by omega)

theorem historicJoaPagesGo_chained
    (invoke : HistoricJoaEndpoint.Params → HistoricJoaEndpoint.Response)
    (params : HistoricJoaEndpoint.Params) :
    ∀ (fuel : Nat) (tok : Option String) (seen : List String),
      ChainedFrom params tok (historicJoaPagesGo invoke params fuel tok seen).rounds := by
  intro fuel
  induction fuel with
  | zero =>
    intro tok seen
    simp [historicJoaPagesGo, ChainedFrom]
  | succ f ih =>
    intro tok seen
    simp only [historicJoaPagesGo]
    cases h1 : (invoke { params with continuation_token := tok }).next_token with
    | none => simp [ChainedFrom, h1]
    | some nt =>
      by_cases h2 : nt ∈ seen ++ tok.toList
      · simp [h2, ChainedFrom, h1]
      · simpa [h2, ChainedFrom, h1] using ih (some nt) (seen ++ tok.toList)

theorem historicJoaPagesGo_ends
    (invoke : HistoricJoaEndpoint.Params → HistoricJoaEndpoint.Response)
    (params : HistoricJoaEndpoint.Params) :
    ∀ (fuel : Nat) (tok : Option String) (seen : List String),
      (historicJoaPagesGo invoke params fuel tok seen).cycle_error = none →
      (historicJoaPagesGo invoke params fuel tok seen).rounds.length < fuel →
      EndsAtAbsentToken (historicJoaPagesGo invoke params fuel tok seen).rounds := by
  intro fuel
  induction fuel with
  | zero =>
    intro tok seen _ hlen
    simp [historicJoaPagesGo] at hlen
  | succ f ih =>
    intro tok seen herr hlen
    simp only [historicJoaPagesGo] at herr hlen ⊢
    cases h1 : (invoke { params with continuation_token := tok }).next_token with
    | none => simp [h1, EndsAtAbsentToken]
    | some nt =>
      by_cases h2 : nt ∈ seen ++ tok.toList
      · simp [h1, h2] at herr
      · simp only [h1, h2, if_neg, if_false] at herr hlen ⊢
        have herr' :
            (historicJoaPagesGo invoke params f (some nt) (seen ++ tok.toList)).cycle_error
              = none := by
          simpa using herr
        have hlen' :
            (historicJoaPagesGo invoke params f (some nt) (seen ++ tok.toList)).rounds.length
              < f := by
          simp only [List.length_cons] at hlen
          omega
        have hrest := ih (some nt) (seen ++ tok.toList) herr' hlen'
        have hne :
            (historicJoaPagesGo invoke params f (some nt) (seen ++ tok.toList)).rounds ≠ [] := by
          refine historicJoaPagesGo_rounds_ne_nil invoke params f (some nt)
            (seen ++ tok.toList) ?_
          omega
        cases hrr :
            (historicJoaPagesGo invoke params f (some nt) (seen ++ tok.toList)).rounds with
        | nil => exact absurd hrr hne
        | cons x xs =>
          rw [hrr] at hrest
          simpa [EndsAtAbsentToken, h1] using hrest

theorem historicJoaPagesGo_succ_eq
    (invoke : HistoricJoaEndpoint.Params → HistoricJoaEndpoint.Response)
    (params : HistoricJoaEndpoint.Params) (f : Nat) (tok : Option String)
    (seen : List String) :
    historicJoaPagesGo invoke params (f + 1) tok seen
      = match (invoke { params with continuation_token := tok }).next_token with
        | none =>
            ⟨[({ params with continuation_token := tok },
                invoke { params with continuation_token := tok })], none⟩
        | some nt =>
            if nt ∈ seen ++ tok.toList then
              ⟨[({ params with continuation_token := tok },
                  invoke { params with continuation_token := tok })], some nt⟩
            else
              ⟨({ params with continuation_token := tok },
                  invoke { params with continuation_token := tok })
                  :: (historicJoaPagesGo invoke params f (some nt) (seen ++ tok.toList)).rounds,
                (historicJoaPagesGo invoke params f (some nt) (seen ++ tok.toList)).cycle_error⟩ :=
  rfl

theorem historicJoaPagesGo_cycle_sound
    (invoke : HistoricJoaEndpoint.Params → HistoricJoaEndpoint.Response)
    (params : HistoricJoaEndpoint.Params) :
    ∀ (fuel : Nat) (tok : Option String) (seen : List String) (t : String),
      (historicJoaPagesGo invoke params fuel tok seen).cycle_error = some t →
      t ∈ seen ++ (historicJoaPagesGo invoke params fuel tok seen).usedTokens
      ∧ ∃ c r, (historicJoaPagesGo invoke params fuel tok seen).rounds.getLast? = some (c, r)
          ∧ r.next_token = some t := by
  intro fuel
  induction fuel with
  | zero =>
    intro tok seen t h
    simp [historicJoaPagesGo] at h
  | succ f ih =>
    intro tok seen t h
    cases h1 : (invoke { params with continuation_token := tok }).next_token with
    | none =>
      have E : historicJoaPagesGo invoke params (f + 1) tok seen
          = ⟨[({ params with continuation_token := tok },
              invoke { params with continuation_token := tok })], none⟩ := by
        rw [historicJoaPagesGo_succ_eq, h1]
      rw [E] at h
      simp at h
    | some nt =>
      by_cases h2 : nt ∈ seen ++ tok.toList
      · have E : historicJoaPagesGo invoke params (f + 1) tok seen
            = ⟨[({ params with continuation_token := tok },
                invoke { params with continuation_token := tok })], some nt⟩ := by
          rw [historicJoaPagesGo_succ_eq, h1]
          simp [h2]
        rw [E] at h ⊢
        obtain rfl : nt = t := by simpa using h
        refine ⟨?_, _, _, rfl, h1⟩
        have hused :
            (⟨[({ params with continuation_token := tok },
                invoke { params with continuation_token := tok })], some nt⟩ :
              TokenTraversal).usedTokens = tok.toList := by
          cases tok <;> simp [TokenTraversal.usedTokens]
        rw [hused]
        exact h2
      · have E : historicJoaPagesGo invoke params (f + 1) tok seen
            = ⟨({ params with continuation_token := tok },
                invoke { params with continuation_token := tok })
                :: (historicJoaPagesGo invoke params f (some nt) (seen ++ tok.toList)).rounds,
              (historicJoaPagesGo invoke params f (some nt) (seen ++ tok.toList)).cycle_error⟩ := by
          rw [historicJoaPagesGo_succ_eq, h1]
          simp [h2]
        rw [E] at h ⊢
        simp only at h
        obtain ⟨hmem, c, r, hlast, hnt⟩ := ih (some nt) (seen ++ tok.toList) t h
        have hne :
            (historicJoaPagesGo invoke params f (some nt) (seen ++ tok.toList)).rounds ≠ [] :=
          historicJoaPagesGo_error_rounds_ne_nil invoke params f (some nt)
            (seen ++ tok.toList) t h
        constructor
        · have hused :
              (⟨({ params with continuation_token := tok },
                  invoke { params with continuation_token := tok })
                  :: (historicJoaPagesGo invoke params f (some nt) (seen ++ tok.toList)).rounds,
                (historicJoaPagesGo invoke params f (some nt) (seen ++ tok.toList)).cycle_error⟩ :
                TokenTraversal).usedTokens
                = tok.toList
                  ++ (historicJoaPagesGo invoke params f (some nt)
                      (seen ++ tok.toList)).usedTokens := by
            cases tok <;> simp [TokenTraversal.usedTokens]
          rw [hused]
          simpa [List.append_assoc] using hmem
        · cases hrr :
              (historicJoaPagesGo invoke params f (some nt) (seen ++ tok.toList)).rounds with
          | nil => exact absurd hrr hne
          | cons y ys =>
            rw [hrr] at hlast
            refine ⟨c, r, ?_, hnt⟩
            simpa [hrr, List.getLast?_cons_cons] using hlast

theorem historicJoaPagesGo_no_dup
    (invoke : HistoricJoaEndpoint.Params → HistoricJoaEndpoint.Response)
    (params : HistoricJoaEndpoint.Params) :
    ∀ (fuel : Nat) (tok : Option String) (seen : List String),
      (historicJoaPagesGo invoke params fuel tok seen).cycle_error = none →
      NoDuplicateExtracted seen (historicJoaPagesGo invoke params fuel tok seen).rounds := by
  intro fuel
  induction fuel with
  | zero =>
    intro tok seen _
    simp [historicJoaPagesGo, NoDuplicateExtracted]
  | succ f ih =>
    intro tok seen herr
    cases h1 : (invoke { params with continuation_token := tok }).next_token with
    | none =>
      have E : historicJoaPagesGo invoke params (f + 1) tok seen
          = ⟨[({ params with continuation_token := tok },
              invoke { params with continuation_token := tok })], none⟩ := by
        rw [historicJoaPagesGo_succ_eq, h1]
      rw [E]
      simp only [NoDuplicateExtracted]
      refine ⟨?_, trivial⟩
      intro t ht
      rw [h1] at ht
      exact Option.noConfusion ht
    | some nt =>
      by_cases h2 : nt ∈ seen ++ tok.toList
      · have E : historicJoaPagesGo invoke params (f + 1) tok seen
            = ⟨[({ params with continuation_token := tok },
                invoke { params with continuation_token := tok })], some nt⟩ := by
          rw [historicJoaPagesGo_succ_eq, h1]
          simp [h2]
        rw [E] at herr
        simp at herr
      · have E : historicJoaPagesGo invoke params (f + 1) tok seen
            = ⟨({ params with continuation_token := tok },
                invoke { params with continuation_token := tok })
                :: (historicJoaPagesGo invoke params f (some nt) (seen ++ tok.toList)).rounds,
              (historicJoaPagesGo invoke params f (some nt) (seen ++ tok.toList)).cycle_error⟩ := by
          rw [historicJoaPagesGo_succ_eq, h1]
          simp [h2]
        rw [E] at herr ⊢
        simp only at herr
        simp only [NoDuplicateExtracted]
        refine ⟨?_, ?_⟩
        · intro t ht
          rw [h1] at ht
          obtain rfl : nt = t := Option.some.inj ht
          exact h2
        · exact ih (some nt) (seen ++ tok.toList) herr

/-- C1: a token-paginator traversal fails with `CycleDetected` exactly
at a repeated continuation token, with duplicate detection covering the
whole history of the traversal: whenever the traversal reports a cycle
error on token `t`, that `t` was extracted by the final fetched response
and equals a token already used by some request of the same traversal
(the trace ends there — no further request is issued — and the error
replaces the final page rather than yielding it silently); no traversal
ends without the error — normally or by running out of fuel — while any
of its responses extracted a token equal to any token used by any
earlier request; when the second response repeats the token used for
the immediately preceding request, the traversal fails on exactly that
token after two requests, yielding only the first page; and when the
third response repeats the token used two requests earlier — an older
token, not the immediately preceding one — the traversal fails on
exactly that token after three requests. -/
theorem c1_duplicate_token_cycle_detected
    (invoke : HistoricJoaEndpoint.Params → HistoricJoaEndpoint.Response)
    (params : HistoricJoaEndpoint.Params) (fuel : Nat) :
    (∀ t : String,
      (historic_joa_pages invoke fuel params).cycle_error = some t →
      t ∈ (historic_joa_pages invoke fuel params).usedTokens
      ∧ (∃ c r, (historic_joa_pages invoke fuel params).rounds.getLast? = some (c, r)
          ∧ r.next_token = some t)
      ∧ (historic_joa_pages invoke fuel params).yieldedPages
          = ((historic_joa_pages invoke fuel params).rounds.map fun cr => cr.2).dropLast)
    ∧ ((historic_joa_pages invoke fuel params).cycle_error = none →
        NoDuplicateExtracted [] (historic_joa_pages invoke fuel params).rounds)
    ∧ (∀ t1 : String, params.continuation_token = none →
        (invoke params).next_token = some t1 →
        (invoke { params with continuation_token := some t1 }).next_token = some t1 →
        2 ≤ fuel →
        (historic_joa_pages invoke fuel params).cycle_error = some t1
        ∧ (historic_joa_pages invoke fuel params).rounds.length = 2
        ∧ (historic_joa_pages invoke fuel params).yieldedPages.length = 1)
    ∧ (∀ tA tB : String, params.continuation_token = none →
        (invoke params).next_token = some tA →
        (invoke { params with continuation_token := some tA }).next_token = some tB →
        (invoke { params with continuation_token := some tB }).next_token = some tA →
        tA ≠ tB →
        3 ≤ fuel →
        (historic_joa_pages invoke fuel params).cycle_error = some tA
        ∧ (historic_joa_pages invoke fuel params).rounds.length = 3
        ∧ (historic_joa_pages invoke fuel params).yieldedPages.length = 2) := by
  refine ⟨?_, ?_, ?_, ?_⟩
  · intro t h
    simp only [historic_joa_pages] at h ⊢
    have hs := historicJoaPagesGo_cycle_sound invoke params fuel
      params.continuation_token [] t h
    refine ⟨by simpa using hs.1, hs.2, ?_⟩
    simp [TokenTraversal.yieldedPages, h]
  · intro herr
    simp only [historic_joa_pages] at herr ⊢
    exact historicJoaPagesGo_no_dup invoke params fuel params.continuation_token [] herr
  · intro t1 hp0 h1 h2 hf
    obtain ⟨f, rfl⟩ : ∃ f, fuel = f + 2 := ⟨fuel - 2, by omega⟩
    have hcall1 : ({ params with continuation_token := none } :
        HistoricJoaEndpoint.Params) = params := by
      rw [← hp0]
    have E2 : historicJoaPagesGo invoke params (f + 1) (some t1) []
        = ⟨[({ params with continuation_token := some t1 },
            invoke { params with continuation_token := some t1 })], some t1⟩ := by
      rw [historicJoaPagesGo_succ_eq, h2]
      simp
    have E1 : historicJoaPagesGo invoke params (f + 2) none []
        = ⟨(params, invoke params)
            :: (historicJoaPagesGo invoke params (f + 1) (some t1) []).rounds,
          (historicJoaPagesGo invoke params (f + 1) (some t1) []).cycle_error⟩ := by
      rw [historicJoaPagesGo_succ_eq, hcall1, h1]
      simp
    simp only [historic_joa_pages, hp0]
    rw [E1, E2]
    refine ⟨rfl, rfl, ?_⟩
    simp [TokenTraversal.yieldedPages]
  · intro tA tB hp0 h1 h2 h3 hAB hf
    obtain ⟨f, rfl⟩ : ∃ f, fuel = f + 3 := ⟨fuel - 3, by omega⟩
    have hcall1 : ({ params with continuation_token := none } :
        HistoricJoaEndpoint.Params) = params := by
      rw [← hp0]
    have E3 : historicJoaPagesGo invoke params (f + 1) (some tB) [tA]
        = ⟨[({ params with continuation_token := some tB },
            invoke { params with continuation_token := some tB })], some tA⟩ := by
      rw [historicJoaPagesGo_succ_eq, h3]
      simp
    have E2 : historicJoaPagesGo invoke params (f + 2) (some tA) []
        = ⟨({ params with continuation_token := some tA },
            invoke { params with continuation_token := some tA })
            :: (historicJoaPagesGo invoke params (f + 1) (some tB) [tA]).rounds,
          (historicJoaPagesGo invoke params (f + 1) (some tB) [tA]).cycle_error⟩ := by
      rw [historicJoaPagesGo_succ_eq, h2]
      simp [Ne.symm hAB]
    have E1 : historicJoaPagesGo invoke params (f + 3) none []
        = ⟨(params, invoke params)
            :: (historicJoaPagesGo invoke params (f + 2) (some tA) []).rounds,
          (historicJoaPagesGo invoke params (f + 2) (some tA) []).cycle_error⟩ := by
      rw [historicJoaPagesGo_succ_eq, hcall1, h1]
      simp
    simp only [historic_joa_pages, hp0]
    rw [E1, E2, E3]
    refine ⟨rfl, rfl, ?_⟩
    simp [TokenTraversal.yieldedPages]

/-- Closed instance of `c1_duplicate_token_cycle_detected`: with every
page extracting `"NEXTTOKEN"`, the traversal reports a cycle on a token
already used, extracted by the last fetched page, and yields the rounds
minus the faulting page; the error-free two-page scenario extracted no
token used anywhere in its history; the adjacent-duplicate scenario
fails after two requests yielding one page; and the `"TOKA"` → `"TOKB"`
→ `"TOKA"` scenario — a duplicate of an older token, not the
immediately preceding one — fails on `"TOKA"` after three requests. -/
theorem c1_duplicate_token_cycle_detected_witness :
    ("NEXTTOKEN" ∈ (historic_joa_pages historicDuplicateScenario 10 {}).usedTokens
      ∧ (∃ c r,
          (historic_joa_pages historicDuplicateScenario 10 {}).rounds.getLast? = some (c, r)
          ∧ r.next_token = some "NEXTTOKEN")
      ∧ (historic_joa_pages historicDuplicateScenario 10 {}).yieldedPages
          = ((historic_joa_pages historicDuplicateScenario 10 {}).rounds.map
              fun cr => cr.2).dropLast)
    ∧ NoDuplicateExtracted []
        (historic_joa_pages historicTwoPageScenario 10
          { hiring_agency_codes := some "NASA"
            continuation_token := some "INITIALTOKEN" }).rounds
    ∧ ((historic_joa_pages historicDuplicateScenario 10 {}).cycle_error = some "NEXTTOKEN"
      ∧ (historic_joa_pages historicDuplicateScenario 10 {}).rounds.length = 2
      ∧ (historic_joa_pages historicDuplicateScenario 10 {}).yieldedPages.length = 1)
    ∧ ((historic_joa_pages historicOlderDuplicateScenario 10 {}).cycle_error = some "TOKA"
      ∧ (historic_joa_pages historicOlderDuplicateScenario 10 {}).rounds.length = 3
      ∧ (historic_joa_pages historicOlderDuplicateScenario 10 {}).yieldedPages.length = 2) :=
  ⟨(c1_duplicate_token_cycle_detected historicDuplicateScenario {} 10).1 "NEXTTOKEN" rfl,
   (c1_duplicate_token_cycle_detected historicTwoPageScenario
      { hiring_agency_codes := some "NASA"
        continuation_token := some "INITIALTOKEN" } 10).2.1 rfl,
   (c1_duplicate_token_cycle_detected historicDuplicateScenario {} 10).2.2.1
      "NEXTTOKEN" rfl rfl rfl (by decide),
   (c1_duplicate_token_cycle_detected historicOlderDuplicateScenario {} 10).2.2.2
      "TOKA" "TOKB" rfl rfl rfl rfl (by decide) (by decide)⟩

/-- C4: token-paginator traversals are chained — each request carries
all original filter parameters plus the token for its round, the first
being the caller's initial token (so the first request is exactly the
caller's parameters, with the token field absent when the caller
supplied none), and each later one the `next_token()` of the previous
response; every fetched page of an error-free traversal is yielded
exactly once in request order; and an error-free traversal that did not
exhaust its fuel stops exactly at the first page whose `next_token()` is
absent. -/
theorem c4_token_paginator_yields_in_order
    (invoke : HistoricJoaEndpoint.Params → HistoricJoaEndpoint.Response)
    (params : HistoricJoaEndpoint.Params) (fuel : Nat) :
    ChainedFrom params params.continuation_token
      (historic_joa_pages invoke fuel params).rounds
    ∧ ((historic_joa_pages invoke fuel params).cycle_error = none →
        (historic_joa_pages invoke fuel params).yieldedPages
          = (historic_joa_pages invoke fuel params).rounds.map fun cr => cr.2)
    ∧ ((historic_joa_pages invoke fuel params).cycle_error = none →
        (historic_joa_pages invoke fuel params).rounds.length < fuel →
        EndsAtAbsentToken (historic_joa_pages invoke fuel params).rounds)
    ∧ (1 ≤ fuel →
        (historic_joa_pages invoke fuel params).rounds.head?
          = some (params, invoke params)) := by
  refine ⟨?_, ?_, ?_, ?_⟩
  · simpa only [historic_joa_pages] using
      historicJoaPagesGo_chained invoke params fuel params.continuation_token []
  · intro h
    simp [TokenTraversal.yieldedPages, h]
  · intro herr hlen
    simp only [historic_joa_pages] at herr hlen ⊢
    exact historicJoaPagesGo_ends invoke params fuel params.continuation_token [] herr hlen
  · intro hf
    obtain ⟨f, rfl⟩ : ∃ f, fuel = f + 1 := ⟨fuel - 1, by omega⟩
    simp only [historic_joa_pages]
    rw [historicJoaPagesGo_succ_eq]
    cases h1 : (invoke { params with
        continuation_token := params.continuation_token }).next_token with
    | none => rfl
    | some nt =>
      by_cases h2 : nt ∈ [] ++ params.continuation_token.toList
      · simp only [if_pos h2]
        rfl
      · simp only [if_neg h2]
        rfl

/-- Closed instance of `c4_token_paginator_yields_in_order`: the
two-page scenario chained by `"NEXTTOKEN"` yields both fetched pages in
order, terminates at the page without a token, and its first request is
the caller's parameters (initial token included verbatim); with no
initial token, the first request of the items scenario omits the token
field. -/
theorem c4_token_paginator_yields_in_order_witness :
    (historic_joa_pages historicTwoPageScenario 10
        { hiring_agency_codes := some "NASA"
          continuation_token := some "INITIALTOKEN" }).yieldedPages
      = ((historic_joa_pages historicTwoPageScenario 10
          { hiring_agency_codes := some "NASA"
            continuation_token := some "INITIALTOKEN" }).rounds.map fun cr => cr.2)
    ∧ EndsAtAbsentToken (historic_joa_pages historicTwoPageScenario 10
        { hiring_agency_codes := some "NASA"
          continuation_token := some "INITIALTOKEN" }).rounds
    ∧ (historic_joa_pages historicItemsScenario 10 {}).rounds.head?
        = some ({}, historicItemsScenario {}) :=
  ⟨(c4_token_paginator_yields_in_order historicTwoPageScenario
      { hiring_agency_codes := some "NASA"
        continuation_token := some "INITIALTOKEN" } 10).2.1 rfl,
   (c4_token_paginator_yields_in_order historicTwoPageScenario
      { hiring_agency_codes := some "NASA"
        continuation_token := some "INITIALTOKEN" } 10).2.2.1 rfl (by decide),
   (c4_token_paginator_yields_in_order historicItemsScenario {} 10).2.2.2 (by decide)⟩

/-! ## Item flattener -/

theorem historic_joa_pages_rounds_head
    (invoke : HistoricJoaEndpoint.Params → HistoricJoaEndpoint.Response)
    (fuel : Nat) (params : HistoricJoaEndpoint.Params) (hf : 1 ≤ fuel) :
    (historic_joa_pages invoke fuel params).rounds.head? = some (params, invoke params) := by
  obtain ⟨f, rfl⟩ : ∃ f, fuel = f + 1 := ⟨fuel - 1, by omega⟩
  simp only [historic_joa_pages]
  rw [historicJoaPagesGo_succ_eq]
  cases h1 : (invoke { params with
      continuation_token := params.continuation_token }).next_token with
  | none => rfl
  | some nt =>
    by_cases h2 : nt ∈ [] ++ params.continuation_token.toList
    · simp only [if_pos h2]
      rfl
    · simp only [if_neg h2]
      rfl

theorem historic_joa_items_take_first
    (invoke : HistoricJoaEndpoint.Params → HistoricJoaEndpoint.Response)
    (fuel : Nat) (params : HistoricJoaEndpoint.Params) (hf : 1 ≤ fuel) :
    (historic_joa_items invoke fuel params).1.take (invoke params).data.length
      = match (invoke params).next_token with
        | none => (invoke params).data
        | some nt =>
            if nt ∈ params.continuation_token.toList then []
            else (invoke params).data := by
  obtain ⟨f, rfl⟩ : ∃ f, fuel = f + 1 := ⟨fuel - 1, by omega⟩
  have heta : ({ params with continuation_token := params.continuation_token } :
      HistoricJoaEndpoint.Params) = params := rfl
  cases h1 : (invoke params).next_token with
  | none =>
    have E : historicJoaPagesGo invoke params (f + 1) params.continuation_token []
        = ⟨[(params, invoke params)], none⟩ := by
      rw [historicJoaPagesGo_succ_eq, heta, h1]
    simp [historic_joa_items, historic_joa_pages, E, TokenTraversal.yieldedPages]
  | some nt =>
    by_cases h2 : nt ∈ params.continuation_token.toList
    · have E : historicJoaPagesGo invoke params (f + 1) params.continuation_token []
          = ⟨[(params, invoke params)], some nt⟩ := by
        rw [historicJoaPagesGo_succ_eq, heta, h1]
        simp [h2]
      simp [historic_joa_items, historic_joa_pages, E, TokenTraversal.yieldedPages, h2]
    · have E : historicJoaPagesGo invoke params (f + 1) params.continuation_token []
          = ⟨(params, invoke params)
              :: (historicJoaPagesGo invoke params f (some nt)
                  ([] ++ params.continuation_token.toList)).rounds,
            (historicJoaPagesGo invoke params f (some nt)
              ([] ++ params.continuation_token.toList)).cycle_error⟩ := by
        rw [historicJoaPagesGo_succ_eq, heta, h1]
        simp [h2]
      rw [List.nil_append] at E
      cases herr : (historicJoaPagesGo invoke params f (some nt)
          params.continuation_token.toList).cycle_error with
      | none =>
        have hitems : (historic_joa_items invoke (f + 1) params).1
            = (invoke params).data
              ++ (((historicJoaPagesGo invoke params f (some nt)
                  params.continuation_token.toList).rounds.map fun cr => cr.2).flatMap
                    fun r => r.data) := by
          simp [historic_joa_items, historic_joa_pages, E,
            TokenTraversal.yieldedPages, herr]
        rw [hitems, List.take_left]
        simp [h2]
      | some terr =>
        have hne := historicJoaPagesGo_error_rounds_ne_nil invoke params f (some nt)
          params.continuation_token.toList terr herr
        cases hrr : (historicJoaPagesGo invoke params f (some nt)
            params.continuation_token.toList).rounds with
        | nil => exact absurd hrr hne
        | cons y ys =>
          have hitems : (historic_joa_items invoke (f + 1) params).1
              = (invoke params).data
                ++ (((y :: ys).map fun cr => cr.2).dropLast.flatMap fun r => r.data) := by
            simp [historic_joa_items, historic_joa_pages, E,
              TokenTraversal.yieldedPages, herr, hrr,
              List.dropLast_cons_of_ne_nil]
          rw [hitems, List.take_left]
          simp [h2]

/-- C5: the item flatteners yield exactly the in-order concatenation of
the items contained in the pages the underlying paginator yields
(`historic_joa_items` over the token paginator's pages,
`search_jobs_items` over the offset paginator's parsed jobs); the very
first underlying page request is the caller's parameters, carrying any
caller-supplied continuation token verbatim; and pages are requested
only on demand — the items covered by the first page are determined by
the first request's response alone, whatever any later request would
return and however much fuel remains. -/
theorem c5_item_flattener_flattens_in_order
    (invoke : HistoricJoaEndpoint.Params → HistoricJoaEndpoint.Response)
    (sInvoke : SearchEndpoint.Params → SearchEndpoint.Response)
    (params : HistoricJoaEndpoint.Params) (sParams : SearchEndpoint.Params)
    (fuel : Nat) :
    (historic_joa_items invoke fuel params).1
        = ((historic_joa_pages invoke fuel params).yieldedPages.flatMap fun r => r.data)
    ∧ search_jobs_items sInvoke fuel sParams
        = ((search_jobs_pages sInvoke fuel sParams).flatMap fun cr => cr.2.jobs)
    ∧ (1 ≤ fuel →
        (historic_joa_pages invoke fuel params).rounds.head? = some (params, invoke params))
    ∧ (∀ (invoke2 : HistoricJoaEndpoint.Params → HistoricJoaEndpoint.Response)
        (fuel2 : Nat), 1 ≤ fuel → 1 ≤ fuel2 → invoke2 params = invoke params →
        (historic_joa_items invoke fuel params).1.take (invoke params).data.length
          = (historic_joa_items invoke2 fuel2 params).1.take (invoke params).data.length) := by
  refine ⟨rfl, rfl, historic_joa_pages_rounds_head invoke fuel params, ?_⟩
  intro invoke2 fuel2 hf hf2 hagree
  have h2 := historic_joa_items_take_first invoke2 fuel2 params hf2
  rw [hagree] at h2
  rw [historic_joa_items_take_first invoke fuel params hf, h2]

/-- Closed instance of `c5_item_flattener_flattens_in_order`: over two
pages holding 2 and 1 items, the flattener yields exactly the 3 item
records in original order; the first underlying request carries the
caller's parameters verbatim; and the first page's items do not depend
on the remaining fuel. -/
theorem c5_item_flattener_flattens_in_order_witness :
    (historic_joa_items historicItemsScenario 10
        { hiring_agency_codes := some "NASA" }).1
      = ((historic_joa_pages historicItemsScenario 10
          { hiring_agency_codes := some "NASA" }).yieldedPages.flatMap fun r => r.data)
    ∧ (historic_joa_pages historicItemsScenario 10
        { hiring_agency_codes := some "NASA" }).rounds.head?
        = some ({ hiring_agency_codes := some "NASA" },
            historicItemsScenario { hiring_agency_codes := some "NASA" })
    ∧ (historic_joa_items historicItemsScenario 10
          { hiring_agency_codes := some "NASA" }).1.take
          (historicItemsScenario { hiring_agency_codes := some "NASA" }).data.length
        = (historic_joa_items historicItemsScenario 1
            { hiring_agency_codes := some "NASA" }).1.take
            (historicItemsScenario { hiring_agency_codes := some "NASA" }).data.length :=
  ⟨(c5_item_flattener_flattens_in_order historicItemsScenario searchPagesNoTotalScenario
      { hiring_agency_codes := some "NASA" } {} 10).1,
   (c5_item_flattener_flattens_in_order historicItemsScenario searchPagesNoTotalScenario
      { hiring_agency_codes := some "NASA" } {} 10).2.2.1 (by decide),
   (c5_item_flattener_flattens_in_order historicItemsScenario searchPagesNoTotalScenario
      { hiring_agency_codes := some "NASA" } {} 10).2.2.2 historicItemsScenario 1
      (by decide) (by decide) rfl⟩

/-! ## Offset paginator invariants -/

theorem searchJobsPagesGo_succ_eq
    (invoke : SearchEndpoint.Params → SearchEndpoint.Response)
    (params : SearchEndpoint.Params) (f : Nat) (page seen : Int) (rpp : Option Int) :
    searchJobsPagesGo invoke params (f + 1) page seen rpp
      = (offsetCall params page rpp, invoke (offsetCall params page rpp))
        :: (if offsetContinue rpp
              (invoke (offsetCall params page rpp)).pageItemCount
              (seen + (invoke (offsetCall params page rpp)).pageItemCount)
              (invoke (offsetCall params page rpp)).reportedTotal
            then
              searchJobsPagesGo invoke params f (page + 1)
                (seen + (invoke (offsetCall params page rpp)).pageItemCount)
                (some (rpp.getD (invoke (offsetCall params page rpp)).pageItemCount))
            else []) :=
  rfl

theorem searchJobsPagesGo_pinned_rpp
    (invoke : SearchEndpoint.Params → SearchEndpoint.Response)
    (params : SearchEndpoint.Params) :
    ∀ (fuel : Nat) (page seen e : Int)
      (cr : SearchEndpoint.Params × SearchEndpoint.Response),
      cr ∈ searchJobsPagesGo invoke params fuel page seen (some e) →
      cr.1.results_per_page = some e := by
  intro fuel
  induction fuel with
  | zero =>
    intro page seen e cr h
    simp [searchJobsPagesGo] at h
  | succ f ih =>
    intro page seen e cr h
    rw [searchJobsPagesGo_succ_eq] at h
    rcases List.mem_cons.mp h with h1 | h1
    · rw [h1]
      rfl
    · split at h1
      · exact ih (page + 1) _ e cr h1
      · simp at h1

theorem search_jobs_pages_tail_rpp
    (invoke : SearchEndpoint.Params → SearchEndpoint.Response)
    (params : SearchEndpoint.Params) (fuel : Nat) :
    ∀ cr ∈ (search_jobs_pages invoke fuel params).tail,
      cr.1.results_per_page
        = some (params.results_per_page.getD
            (invoke (firstSearchCall params)).pageItemCount) := by
  cases fuel with
  | zero =>
    intro cr h
    simp [search_jobs_pages, searchJobsPagesGo] at h
  | succ f =>
    intro cr h
    simp only [search_jobs_pages] at h
    rw [searchJobsPagesGo_succ_eq, List.tail_cons] at h
    split at h
    · exact searchJobsPagesGo_pinned_rpp invoke params f _ _ _ cr h
    · simp at h

/-- C2: the offset paginator decides stopping after each page with this
priority: a page with zero items is still yielded and the traversal
stops immediately; otherwise, with a server-reported total, it continues
exactly while the running count of items seen is below that total;
otherwise it continues exactly while the page's item count equals the
effective page size.  The request loop steps by that decision, and on
pages of sizes 2, 2, 1 with reported total 5 and page size 2 it yields
exactly 3 pages requesting pages 1, 2, 3. -/
theorem c2_offset_paginator_stopping_priority
    (invoke : SearchEndpoint.Params → SearchEndpoint.Response)
    (params : SearchEndpoint.Params) (fuel : Nat) :
    (∀ (rpp : Option Int) (s : Int) (total : Option Int),
        offsetContinue rpp 0 s total = false)
    ∧ (∀ (rpp : Option Int) (count s t : Int), count ≠ 0 →
        offsetContinue rpp count s (some t) = decide (s < t))
    ∧ (∀ (rpp : Option Int) (count s : Int), count ≠ 0 →
        offsetContinue rpp count s none = decide (count = rpp.getD count))
    ∧ (∀ (f : Nat) (page seen : Int) (rpp : Option Int),
        searchJobsPagesGo invoke params (f + 1) page seen rpp
          = (offsetCall params page rpp, invoke (offsetCall params page rpp))
            :: (if offsetContinue rpp
                  (invoke (offsetCall params page rpp)).pageItemCount
                  (seen + (invoke (offsetCall params page rpp)).pageItemCount)
                  (invoke (offsetCall params page rpp)).reportedTotal
                then
                  searchJobsPagesGo invoke params f (page + 1)
                    (seen + (invoke (offsetCall params page rpp)).pageItemCount)
                    (some (rpp.getD (invoke (offsetCall params page rpp)).pageItemCount))
                else []))
    ∧ (1 ≤ fuel → (invoke (firstSearchCall params)).pageItemCount = 0 →
        search_jobs_pages invoke fuel params
          = [(firstSearchCall params, invoke (firstSearchCall params))])
    ∧ (search_jobs_pages searchPagesTotalsScenario 10
          { keyword := some "engineer", results_per_page := some 2 }).map
        (fun cr => (cr.1.page, cr.1.results_per_page))
        = [(some 1, some 2), (some 2, some 2), (some 3, some 2)] := by
  refine ⟨?_, ?_, ?_, ?_, ?_, ?_⟩
  · intro rpp s total
    simp [offsetContinue]
  · intro rpp count s t h
    simp [offsetContinue, h]
  · intro rpp count s h
    simp [offsetContinue, h]
  · intro f page seen rpp
    exact searchJobsPagesGo_succ_eq invoke params f page seen rpp
  · intro hf h0
    obtain ⟨f, rfl⟩ : ∃ f, fuel = f + 1 := ⟨fuel - 1, by omega⟩
    simp only [search_jobs_pages]
    rw [searchJobsPagesGo_succ_eq]
    have hfold : offsetCall params (params.page.getD 1) params.results_per_page
        = firstSearchCall params := rfl
    rw [hfold, h0]
    simp [offsetContinue]
  · rfl

/-- Closed instance of `c2_offset_paginator_stopping_priority`: a first
page with zero items is still yielded and the traversal stops with
exactly that one page. -/
theorem c2_offset_paginator_stopping_priority_witness :
    search_jobs_pages searchPagesEmptyScenario 5 { keyword := some "empty" }
      = [(firstSearchCall { keyword := some "empty" },
          searchPagesEmptyScenario (firstSearchCall { keyword := some "empty" }))] :=
  (c2_offset_paginator_stopping_priority searchPagesEmptyScenario
      { keyword := some "empty" } 5).2.2.2.2.1 (by decide) rfl

/-- C3: the first request of an offset-paginator traversal carries the
caller's results-per-page exactly as configured — omitted entirely when
the caller configured none — while every request after the first carries
an explicit results-per-page equal to the caller's configured value when
one was given and otherwise derived from the item count the server
actually returned for the first page; on pages of sizes 2, 1 with no
total and no configured page size, the two requests carry page numbers
1, 2 with the results-per-page absent then 2. -/
theorem c3_results_per_page_forwarding
    (invoke : SearchEndpoint.Params → SearchEndpoint.Response)
    (params : SearchEndpoint.Params) (fuel : Nat) :
    (1 ≤ fuel →
      (search_jobs_pages invoke fuel params).head?
        = some (firstSearchCall params, invoke (firstSearchCall params)))
    ∧ (∀ cr ∈ (search_jobs_pages invoke fuel params).tail,
        cr.1.results_per_page
          = some (params.results_per_page.getD
              (invoke (firstSearchCall params)).pageItemCount))
    ∧ (∀ r : Int, params.results_per_page = some r →
        ∀ cr ∈ (search_jobs_pages invoke fuel params).tail,
          cr.1.results_per_page = some r)
    ∧ (search_jobs_pages searchPagesNoTotalScenario 10 { keyword := some "space" }).map
        (fun cr => (cr.1.page, cr.1.results_per_page))
        = [(some 1, none), (some 2, some 2)] := by
  refine ⟨?_, search_jobs_pages_tail_rpp invoke params fuel, ?_, rfl⟩
  · intro hf
    obtain ⟨f, rfl⟩ : ∃ f, fuel = f + 1 := ⟨fuel - 1, by omega⟩
    simp only [search_jobs_pages]
    rw [searchJobsPagesGo_succ_eq]
    rfl
  · intro r hr cr h
    rw [search_jobs_pages_tail_rpp invoke params fuel cr h, hr]
    rfl

/-- Closed instance of `c3_results_per_page_forwarding`: the first
request of the reported-total scenario forwards the caller's page size,
and the second request of the same traversal carries the explicit
forwarded page size 2. -/
theorem c3_results_per_page_forwarding_witness :
    (search_jobs_pages searchPagesTotalsScenario 10
        { keyword := some "engineer", results_per_page := some 2 }).head?
      = some (firstSearchCall { keyword := some "engineer", results_per_page := some 2 },
          searchPagesTotalsScenario
            (firstSearchCall { keyword := some "engineer", results_per_page := some 2 }))
    ∧ (({ keyword := some "engineer", page := some 2, results_per_page := some 2 } :
          SearchEndpoint.Params),
        mkSearchPage 2 (some 5)).1.results_per_page = some 2 :=
  ⟨(c3_results_per_page_forwarding searchPagesTotalsScenario
      { keyword := some "engineer", results_per_page := some 2 } 10).1 (by decide),
   (c3_results_per_page_forwarding searchPagesTotalsScenario
      { keyword := some "engineer", results_per_page := some 2 } 10).2.2.1 2 rfl
      (({ keyword := some "engineer", page := some 2, results_per_page := some 2 } :
          SearchEndpoint.Params),
        mkSearchPage 2 (some 5))
      (List.mem_cons_self _ _)⟩

end Usajobsapi
